import Mathlib

/-!
Shallow embedding of the Bellevue traffic-simulation core
(`src/bellevue_traffic/{traffic_signals,vehicles,simulation}.py`).

Python floats are modelled as exact rationals (`ℚ`); dictionary/list
state is modelled as association lists; operations that can raise an
`IndexError` in Python return `Option`.
-/

namespace BellevueTraffic

/-- `SignalState` enum (`traffic_signals.py`). -/
inductive SignalState where
  | RED
  | YELLOW
  | GREEN
deriving DecidableEq

/-- The fixed sub-state cycle of a signal: GREEN → YELLOW → RED → GREEN. -/
def SignalState.nextState : SignalState → SignalState
  | SignalState.GREEN => SignalState.YELLOW
  | SignalState.YELLOW => SignalState.RED
  | SignalState.RED => SignalState.GREEN

/-- `SignalPhase` dataclass: a single phase of a traffic signal. -/
structure SignalPhase where
  name : String
  duration : ℚ
  green_approaches : List String
  yellow_duration : ℚ
deriving DecidableEq

/-- State of a `TrafficSignal` object. -/
structure TrafficSignal where
  id : Nat
  node_id : Nat
  position : ℚ × ℚ
  phases : List SignalPhase
  coordinated : Bool
  offset : ℚ
  current_phase_index : Nat
  current_state : SignalState
  time_in_phase : ℚ
  cycle_length : ℚ
deriving DecidableEq

/-- `TrafficSignal.__init__`: note that it performs no validation of
`phases` — an empty phase list is accepted and `cycle_length` sums to 0. -/
def TrafficSignal.init (signal_id node_id : Nat) (position : ℚ × ℚ)
    (phases : List SignalPhase) (coordinated : Bool) (offset : ℚ) : TrafficSignal :=
  { id := signal_id
    node_id := node_id
    position := position
    phases := phases
    coordinated := coordinated
    offset := offset
    current_phase_index := 0
    current_state := SignalState.RED
    time_in_phase := 0
    cycle_length := (phases.map (fun phase => phase.duration + phase.yellow_duration)).sum }

/-- `TrafficSignal.get_current_phase`: `self.phases[self.current_phase_index]`.
Python raises `IndexError` on an empty phase list; modelled as `none`. -/
def TrafficSignal.get_current_phase (s : TrafficSignal) : Option SignalPhase :=
  s.phases[s.current_phase_index]?

/-- `TrafficSignal.get_state_for_approach`. -/
def TrafficSignal.get_state_for_approach (s : TrafficSignal) (approach : String) :
    Option SignalState :=
  match s.get_current_phase with
  | none => none
  | some current_phase =>
    if approach ∈ current_phase.green_approaches then some s.current_state
    else some SignalState.RED

/-- `TrafficSignal.update`: advances the timer by `time_step`, then performs
at most one sub-state transition, resetting the timer to 0 on a transition.
`none` models the `IndexError` from `get_current_phase` on a zero-phase signal. -/
def TrafficSignal.update (s : TrafficSignal) (time_step : ℚ) : Option TrafficSignal :=
  let t := s.time_in_phase + time_step
  match s.get_current_phase with
  | none => none
  | some current_phase =>
    if s.current_state = SignalState.GREEN then
      if t ≥ current_phase.duration then
        some { s with current_state := SignalState.YELLOW, time_in_phase := 0 }
      else
        some { s with time_in_phase := t }
    else if s.current_state = SignalState.YELLOW then
      if t ≥ current_phase.yellow_duration then
        some { s with current_state := SignalState.RED
                      current_phase_index := (s.current_phase_index + 1) % s.phases.length
                      time_in_phase := 0 }
      else
        some { s with time_in_phase := t }
    else
      if t ≥ 1 then
        some { s with current_state := SignalState.GREEN, time_in_phase := 0 }
      else
        some { s with time_in_phase := t }

/-- `TrafficSignal.can_vehicle_proceed`. -/
def TrafficSignal.can_vehicle_proceed (s : TrafficSignal) (approach : String)
    (distance_to_signal vehicle_speed : ℚ) : Option Bool :=
  match s.get_state_for_approach approach with
  | none => none
  | some state =>
    if state = SignalState.GREEN then some true
    else if state = SignalState.YELLOW then
      some (decide (distance_to_signal < vehicle_speed ^ 2 / (2 * (4.5 : ℚ))))
    else some false

/-- One phase of the standard 4-way demo signal (`create_standard_signal`). -/
def demoPhase : SignalPhase :=
  { name := "NS_Green", duration := 60, green_approaches := ["north", "south"],
    yellow_duration := 3 }

/-- A freshly constructed one-phase demo signal (starts RED with timer 0). -/
def demoSignal : TrafficSignal :=
  TrafficSignal.init 0 0 (0, 0) [demoPhase] false 0

/-- The demo signal after its RED → GREEN clearance transition. -/
def demoSignalG : TrafficSignal :=
  { demoSignal with current_state := SignalState.GREEN, time_in_phase := 0 }

/-- `np.clip(a, lo, hi)` on scalars. -/
def npClip (a lo hi : ℚ) : ℚ := min hi (max lo a)

/-- `VehicleType` enum (`vehicles.py`). -/
inductive VehicleType where
  | CAR
  | BUS
  | TRUCK
  | MOTORCYCLE
deriving DecidableEq

/-- `VehicleStats` dataclass. -/
structure VehicleStats where
  total_distance : ℚ
  total_time : ℚ
  stops : Nat
  lane_changes : Nat
  average_speed : ℚ
  max_speed : ℚ
  time_in_congestion : ℚ
deriving DecidableEq

/-- Fresh `VehicleStats` (all dataclass defaults are zero). -/
def VehicleStats.fresh : VehicleStats :=
  { total_distance := 0, total_time := 0, stops := 0, lane_changes := 0,
    average_speed := 0, max_speed := 0, time_in_congestion := 0 }

/-- State of a `Vehicle` object (`vehicles.py`). -/
structure Vehicle where
  id : Nat
  type : VehicleType
  spawn_time : ℚ
  origin : ℚ × ℚ
  destination : ℚ × ℚ
  route : List Nat
  position : ℚ × ℚ
  current_edge : Option (Nat × Nat × Nat)
  current_lane : Nat
  speed : ℚ
  acceleration : ℚ
  max_speed : ℚ
  max_acceleration : ℚ
  max_deceleration : ℚ
  length : ℚ
  width : ℚ
  desired_time_headway : ℚ
  min_spacing : ℚ
  politeness : ℚ
  aggressiveness : ℚ
  stats : VehicleStats
  completed : Bool
  waiting_at_signal : Bool
deriving DecidableEq

/-- `Vehicle.__init__` (base class): characteristics 0, behaviour defaults. -/
def Vehicle.base (vehicle_id : Nat) (vehicle_type : VehicleType) (spawn_time : ℚ)
    (origin destination : ℚ × ℚ) (route : List Nat) : Vehicle :=
  { id := vehicle_id
    type := vehicle_type
    spawn_time := spawn_time
    origin := origin
    destination := destination
    route := route
    position := origin
    current_edge := none
    current_lane := 0
    speed := 0
    acceleration := 0
    max_speed := 0
    max_acceleration := 0
    max_deceleration := 0
    length := 0
    width := 0
    desired_time_headway := 1.5
    min_spacing := 2.0
    politeness := 0.5
    aggressiveness := 0.5
    stats := VehicleStats.fresh
    completed := false
    waiting_at_signal := false }

/-- `Car.__init__`. The per-instance personality traits are drawn from
`np.random.normal` and clipped; the raw draws are taken as parameters
(`aggressiveness_draw`, `politeness_draw`), making the external randomness
explicit, and the `np.clip` bounds are applied exactly as in the code. -/
def Car.init (vehicle_id : Nat) (spawn_time : ℚ) (origin destination : ℚ × ℚ)
    (route : List Nat) (aggressiveness_draw politeness_draw : ℚ) : Vehicle :=
  { Vehicle.base vehicle_id VehicleType.CAR spawn_time origin destination route with
    max_speed := 120 / 3.6
    max_acceleration := 2.5
    max_deceleration := 4.5
    length := 4.5
    width := 2.0
    aggressiveness := npClip aggressiveness_draw 0.2 0.8
    politeness := npClip politeness_draw 0.2 0.8 }

/-- `Bus.__init__` (the bus-only fields `bus_stops`/`passengers` are not
part of any claim and are omitted from the record). -/
def Bus.init (vehicle_id : Nat) (spawn_time : ℚ) (origin destination : ℚ × ℚ)
    (route : List Nat) (aggressiveness_draw politeness_draw : ℚ) : Vehicle :=
  { Vehicle.base vehicle_id VehicleType.BUS spawn_time origin destination route with
    max_speed := 90 / 3.6
    max_acceleration := 1.2
    max_deceleration := 3.0
    length := 12.0
    width := 2.5
    aggressiveness := npClip aggressiveness_draw 0.1 0.5
    politeness := npClip politeness_draw 0.5 0.9 }

/-- `Truck.__init__` (`cargo_weight` is not part of any claim). -/
def Truck.init (vehicle_id : Nat) (spawn_time : ℚ) (origin destination : ℚ × ℚ)
    (route : List Nat) (aggressiveness_draw politeness_draw : ℚ) : Vehicle :=
  { Vehicle.base vehicle_id VehicleType.TRUCK spawn_time origin destination route with
    max_speed := 100 / 3.6
    max_acceleration := 0.8
    max_deceleration := 2.5
    length := 15.0
    width := 2.5
    aggressiveness := npClip aggressiveness_draw 0.1 0.4
    politeness := npClip politeness_draw 0.4 0.8 }

/-- `Motorcycle.__init__`. -/
def Motorcycle.init (vehicle_id : Nat) (spawn_time : ℚ) (origin destination : ℚ × ℚ)
    (route : List Nat) (aggressiveness_draw politeness_draw : ℚ) : Vehicle :=
  { Vehicle.base vehicle_id VehicleType.MOTORCYCLE spawn_time origin destination route with
    max_speed := 140 / 3.6
    max_acceleration := 3.5
    max_deceleration := 5.0
    length := 2.0
    width := 0.8
    aggressiveness := npClip aggressiveness_draw 0.4 0.95
    politeness := npClip politeness_draw 0.2 0.7 }

/-- `Vehicle.calculate_acceleration` (IDM variant). `sqrt_accel_decel`
stands for `np.sqrt(abs(self.max_acceleration * self.max_deceleration))`,
the one irrational constant of the formula; it is passed in as a parameter
(ℚ has no square root) and only enters the leader-gap term. Note the code
subtracts the gap term only when `leader_distance > 0`; a non-positive gap
leaves the free-flow acceleration unchanged. -/
def Vehicle.calculate_acceleration (veh : Vehicle) (sqrt_accel_decel : ℚ)
    (leader_distance leader_speed : Option ℚ) (desired_speed : ℚ) : ℚ :=
  let accel := veh.max_acceleration * (1 - (veh.speed / desired_speed) ^ 4)
  let accel :=
    match leader_distance, leader_speed with
    | some ld, some ls =>
      let desired_spacing := veh.min_spacing +
        max 0 (veh.speed * veh.desired_time_headway +
          veh.speed * (veh.speed - ls) / (2 * sqrt_accel_decel))
      if ld > 0 then accel - veh.max_acceleration * (desired_spacing / ld) ^ 2
      else accel
    | _, _ => accel
  let accel := accel * (0.5 + 0.5 * veh.aggressiveness)
  npClip accel (-veh.max_deceleration) veh.max_acceleration

/-- `Vehicle.update_position`. `norm_dist` stands for
`np.linalg.norm(new_position - self.position)` (a Euclidean norm, hence
irrational in general); it is passed in as a parameter. -/
def Vehicle.update_position (veh : Vehicle) (norm_dist : ℚ) (new_position : ℚ × ℚ)
    (time_step : ℚ) : Vehicle :=
  let stats := veh.stats
  let stats := { stats with total_distance := stats.total_distance + norm_dist
                            total_time := stats.total_time + time_step }
  let stats :=
    if stats.total_time > 0 then
      { stats with average_speed := stats.total_distance / stats.total_time }
    else stats
  let stats :=
    if veh.speed > stats.max_speed then { stats with max_speed := veh.speed }
    else stats
  { veh with position := new_position, stats := stats }

/-- Edge key `(u, v, key)` of the road multigraph. -/
abbrev EdgeKey : Type := Nat × Nat × Nat

/-- The dictionary returned by `BellevueRoadNetwork.get_edge_info`. -/
structure EdgeInfo where
  speed_limit : ℚ
  lanes : Nat
  road_type : String
  length : ℚ
deriving DecidableEq

/-- The effect of one `_update_vehicle_position` call on edge occupancy:
stay on the current edge, advance to `next_edge`, or complete (detach). -/
inductive MoveResult where
  | stay
  | advance (next_edge : EdgeKey)
  | complete
deriving DecidableEq

/-- Lines 271–280 of `_update_vehicle_position`: signal gating. The code
always queries approach `'north'` with `distance_to_signal` estimated as
half the edge length. `none` models the `IndexError` a zero-phase signal
raises inside `can_vehicle_proceed`. -/
def signalCanProceed (edge_info : EdgeInfo) (signal : Option TrafficSignal)
    (veh : Vehicle) : Option Bool :=
  match signal with
  | none => some true
  | some sig => sig.can_vehicle_proceed "north" (edge_info.length * 0.5) veh.speed

/-- Lines 282–293 of `_update_vehicle_position`: leader lookup on the
current edge's occupancy list. A leader exists when the vehicle's index in
the list is positive; the gap is the fixed 50.0 m placeholder. Returns
`(leader_distance, leader_speed)`. -/
def leaderOnEdge (edge_list : List Vehicle) (veh : Vehicle) : Option ℚ × Option ℚ :=
  match edge_list.findIdx? (fun w => w.id == veh.id) with
  | some i =>
    if 0 < i then
      match edge_list[i - 1]? with
      | some leader => (some (50.0 : ℚ), some leader.speed)
      | none => (none, none)
    else (none, none)
  | none => (none, none)

/-- Lines 296–304 of `_update_vehicle_position`: desired speed (0 when
gated by the signal, the edge speed limit otherwise) fed to the IDM. -/
def tickAcceleration (edge_info : EdgeInfo) (edge_list : List Vehicle)
    (sqrt_accel_decel : ℚ) (veh : Vehicle) (can_proceed : Bool) : ℚ :=
  let leader_info := leaderOnEdge edge_list veh
  let desired_speed := if can_proceed then edge_info.speed_limit else 0
  veh.calculate_acceleration sqrt_accel_decel leader_info.1 leader_info.2 desired_speed

/-- `TrafficSimulation._update_vehicle_position` (`simulation.py`), for one
vehicle. External reads are parameters: `edge_info` is
`network.get_edge_info(u, v, key)`, `signal` is
`signal_controller.get_signal_at_node(v)`, `edge_list` is
`self.edge_vehicles[current_edge]`, `node_pos` is
`network.get_node_position(v)`, and `norm_dist`/`sqrt_accel_decel` stand for
the two irrational library calls (see `Vehicle.update_position` and
`Vehicle.calculate_acceleration`). The returned `MoveResult` captures the
occupancy-list mutations of lines 322–338. `none` models an uncaught
exception (zero-phase signal lookup, out-of-range route index). -/
def updateVehiclePosition (edge_info : EdgeInfo) (signal : Option TrafficSignal)
    (edge_list : List Vehicle) (node_pos : ℚ × ℚ) (norm_dist : ℚ)
    (sqrt_accel_decel : ℚ) (time_step : ℚ) (veh : Vehicle) :
    Option (Vehicle × MoveResult) :=
  if veh.route.length < 2 then some ({ veh with completed := true }, MoveResult.stay)
  else
    match veh.current_edge with
    | none => some ({ veh with completed := true }, MoveResult.stay)
    | some (_, v, _) =>
      let edge_length := edge_info.length
      match signalCanProceed edge_info signal veh with
      | none => none
      | some can_proceed =>
        let veh := { veh with waiting_at_signal := !can_proceed }
        let acceleration :=
          tickAcceleration edge_info edge_list sqrt_accel_decel veh can_proceed
        let new_speed := max 0 (veh.speed + acceleration * time_step)
        let veh := { veh with speed := new_speed, acceleration := acceleration }
        let distance_traveled := veh.speed * time_step
        if distance_traveled ≥ edge_length * 0.5 then
          match veh.route.findIdx? (fun n => n == v) with
          | some ri =>
            if ri < veh.route.length - 1 then
              match veh.route[ri + 1]? with
              | none => none
              | some next_node =>
                let new_edge : EdgeKey := (v, next_node, 0)
                let veh := { veh with current_edge := some new_edge }
                let veh := veh.update_position norm_dist node_pos time_step
                some (veh, MoveResult.advance new_edge)
            else
              some ({ veh with completed := true }, MoveResult.complete)
          | none =>
            some ({ veh with completed := true }, MoveResult.complete)
        else
          some ({ veh with
                  stats := { veh.stats with
                             total_time := veh.stats.total_time + time_step } },
                MoveResult.stay)

/-- The `density_ratio` of `get_congestion_level`: `occupancy / capacity`
with `capacity = (length / 7.0) * lanes`, and 0 when the capacity is not
positive. -/
def densityQuot (edge_info : EdgeInfo) (vehicles_on_edge : List Vehicle) : ℚ :=
  let capacity := (edge_info.length / 7.0) * (edge_info.lanes : ℚ)
  let occupancy := (vehicles_on_edge.length : ℚ)
  if capacity > 0 then occupancy / capacity else 0

/-- The `speed_ratio` of `get_congestion_level`:
`1 - np.mean(speeds) / speed_limit` when the edge is occupied and the limit
is positive, 0 otherwise. -/
def speedQuot (edge_info : EdgeInfo) (vehicles_on_edge : List Vehicle) : ℚ :=
  if vehicles_on_edge.isEmpty then 0
  else
    let avg_speed := (vehicles_on_edge.map Vehicle.speed).sum / (vehicles_on_edge.length : ℚ)
    if edge_info.speed_limit > 0 then 1 - avg_speed / edge_info.speed_limit else 0

/-- `TrafficSimulation.get_congestion_level`: combines density and speed
terms and caps the result at 1 with `min(1.0, congestion)`. Note there is
no lower cap. `vehicles_on_edge` is `self.edge_vehicles[edge]`. -/
def get_congestion_level (edge_info : EdgeInfo) (vehicles_on_edge : List Vehicle) : ℚ :=
  let congestion :=
    0.6 * densityQuot edge_info vehicles_on_edge + 0.4 * speedQuot edge_info vehicles_on_edge
  min 1 congestion

/-!
Edge-occupancy state. `self.edge_vehicles` is a
`defaultdict(list)` keyed by edge tuples, holding lists of vehicle
references; it is modelled as an association list of vehicle ids
(object identity = the unique, never-reused vehicle id).
-/

/-- Read `self.edge_vehicles[e]`: the list of the first entry keyed `e`,
or the empty list a fresh `defaultdict` entry would hold. -/
def occList : List (EdgeKey × List Nat) → EdgeKey → List Nat
  | [], _ => []
  | (k, l) :: rest, e => if k = e then l else occList rest e

/-- `self.edge_vehicles[e].append(i)` (creating the entry if missing). -/
def occAppend : List (EdgeKey × List Nat) → EdgeKey → Nat → List (EdgeKey × List Nat)
  | [], e, i => [(e, [i])]
  | (k, l) :: rest, e, i =>
    if k = e then (k, l ++ [i]) :: rest else (k, l) :: occAppend rest e i

/-- `if i in self.edge_vehicles[e]: self.edge_vehicles[e].remove(i)`:
removes the first occurrence, a no-op when absent (the guarded form the
code uses); the `defaultdict` access still creates a missing entry. -/
def occErase : List (EdgeKey × List Nat) → EdgeKey → Nat → List (EdgeKey × List Nat)
  | [], e, _ => [(e, [])]
  | (k, l) :: rest, e, i =>
    if k = e then (k, l.erase i) :: rest else (k, l) :: occErase rest e i

/-- All vehicle ids held in any occupancy list, in order. -/
def allIds (m : List (EdgeKey × List Nat)) : List Nat :=
  (m.map Prod.snd).flatten

/-- Sum of per-edge occupancy counts. -/
def occTotal (m : List (EdgeKey × List Nat)) : Nat :=
  (m.map (fun p => p.2.length)).sum

/-- The `self.stats` counter dictionary of `TrafficSimulation`. -/
structure SimStats where
  vehicles_spawned : Nat
  vehicles_completed : Nat
  total_travel_time : ℚ
  total_distance : ℚ
  total_stops : Nat
  congestion_events : Nat
deriving DecidableEq

/-- The counters as initialised in `TrafficSimulation.__init__`. -/
def SimStats.fresh : SimStats :=
  { vehicles_spawned := 0, vehicles_completed := 0, total_travel_time := 0,
    total_distance := 0, total_stops := 0, congestion_events := 0 }

/-- The mutable simulation state touched by spawning and vehicle updates:
the active-vehicle dict (as an insertion-ordered list), the id counter,
the completed list, the occupancy index, and the statistics counters. -/
structure SimState where
  vehicles : List Vehicle
  next_vehicle_id : Nat
  completed_vehicles : List Vehicle
  edge_vehicles : List (EdgeKey × List Nat)
  stats : SimStats
deriving DecidableEq

/-- The state as initialised in `TrafficSimulation.__init__`. -/
def SimState.fresh : SimState :=
  { vehicles := [], next_vehicle_id := 0, completed_vehicles := [],
    edge_vehicles := [], stats := SimStats.fresh }

/-- The `vehicle_type` dispatch of `_spawn_vehicle` (unknown strings fall
back to `Car`). -/
def mkVehicleOfType (vehicle_type : String) (vehicle_id : Nat) (now : ℚ)
    (origin destination : ℚ × ℚ) (route : List Nat)
    (aggressiveness_draw politeness_draw : ℚ) : Vehicle :=
  if vehicle_type = "car" then
    Car.init vehicle_id now origin destination route aggressiveness_draw politeness_draw
  else if vehicle_type = "bus" then
    Bus.init vehicle_id now origin destination route aggressiveness_draw politeness_draw
  else if vehicle_type = "truck" then
    Truck.init vehicle_id now origin destination route aggressiveness_draw politeness_draw
  else if vehicle_type = "motorcycle" then
    Motorcycle.init vehicle_id now origin destination route aggressiveness_draw politeness_draw
  else
    Car.init vehicle_id now origin destination route aggressiveness_draw politeness_draw

/-- `TrafficSimulation._spawn_vehicle`. `route` is the result of the
external `network.find_route(origin, destination)`; `now` is `env.now`;
the personality draws are the external random samples. Note the id
counter is bumped before the route check, so a dropped spawn still
consumes an id, but `stats['vehicles_spawned']` is incremented only on
the success path. -/
def spawnVehicle (s : SimState) (vehicle_type : String) (origin destination : ℚ × ℚ)
    (route : List Nat) (now aggressiveness_draw politeness_draw : ℚ) : SimState :=
  let vehicle_id := s.next_vehicle_id
  let s := { s with next_vehicle_id := s.next_vehicle_id + 1 }
  if route.isEmpty ∨ route.length < 2 then s
  else
    let vehicle := mkVehicleOfType vehicle_type vehicle_id now origin destination route
      aggressiveness_draw politeness_draw
    match route with
    | r0 :: r1 :: _ =>
      let e : EdgeKey := (r0, r1, 0)
      let vehicle := { vehicle with current_edge := some e }
      { s with vehicles := s.vehicles ++ [vehicle]
               edge_vehicles := occAppend s.edge_vehicles e vehicle.id
               stats := { s.stats with
                          vehicles_spawned := s.stats.vehicles_spawned + 1 } }
    | _ => s

/-- The three occupancy-affecting operations of the simulation:
the spawn attach (`_spawn_vehicle`, lines 205–211), the edge transition
(`_update_vehicle_position`, lines 319–333) and the completion detach
(lines 334–338). -/
inductive OccOp where
  | spawnAttach (veh : Vehicle) (e : EdgeKey)
  | edgeTransition (vid : Nat) (old_edge new_edge : EdgeKey)
  | completeDetach (vid : Nat) (old_edge : EdgeKey)

/-- Apply an occupancy operation to the simulation state, exactly as the
code mutates `self.vehicles` / `self.edge_vehicles`. -/
def applyOccOp : OccOp → SimState → SimState
  | OccOp.spawnAttach veh e, s =>
    { s with vehicles := s.vehicles ++ [{ veh with current_edge := some e }]
             edge_vehicles := occAppend s.edge_vehicles e veh.id }
  | OccOp.edgeTransition vid old_edge new_edge, s =>
    { s with vehicles := s.vehicles.map
               (fun w => if w.id = vid then { w with current_edge := some new_edge } else w)
             edge_vehicles := occAppend (occErase s.edge_vehicles old_edge vid) new_edge vid }
  | OccOp.completeDetach vid old_edge, s =>
    { s with vehicles := s.vehicles.map
               (fun w => if w.id = vid then { w with completed := true } else w)
             edge_vehicles := occErase s.edge_vehicles old_edge vid }

/-- The call-site preconditions of the operations: a spawn uses a fresh,
uncompleted vehicle (ids are monotone, never reused); a transition or
completion acts on an active vehicle currently on `old_edge` (the code
reads `vehicle.current_edge` to pick the list it detaches from). -/
def OccOpPre : OccOp → SimState → Prop
  | OccOp.spawnAttach veh _, s =>
    veh.completed = false ∧ ∀ w ∈ s.vehicles, w.id ≠ veh.id
  | OccOp.edgeTransition vid old_edge _, s =>
    ∃ veh ∈ s.vehicles, veh.id = vid ∧ veh.completed = false ∧
      veh.current_edge = some old_edge
  | OccOp.completeDetach vid old_edge, s =>
    ∃ veh ∈ s.vehicles, veh.id = vid ∧ veh.completed = false ∧
      veh.current_edge = some old_edge

/-- The active vehicles that have a current edge. -/
def activeWithEdge (s : SimState) : List Vehicle :=
  s.vehicles.filter (fun w => !w.completed && w.current_edge.isSome)

/-- The occupancy invariant: unique keys, each vehicle id in at most one
list (and at most once), unique vehicle ids, an active vehicle's id is in
exactly the list of its current edge, a completed vehicle's id is in no
list, and every listed id belongs to a tracked vehicle. -/
structure OccInv (s : SimState) : Prop where
  keys_nodup : (s.edge_vehicles.map Prod.fst).Nodup
  ids_nodup : (allIds s.edge_vehicles).Nodup
  veh_ids_nodup : (s.vehicles.map Vehicle.id).Nodup
  active_mem_iff : ∀ veh ∈ s.vehicles, veh.completed = false →
    ∀ e, veh.id ∈ occList s.edge_vehicles e ↔ veh.current_edge = some e
  completed_not_mem : ∀ veh ∈ s.vehicles, veh.completed = true →
    ∀ e, veh.id ∉ occList s.edge_vehicles e
  occ_ids_exist : ∀ i ∈ allIds s.edge_vehicles, ∃ veh ∈ s.vehicles, veh.id = i

/-!
Theorems. Claims C1–C10 of the specification are settled below against
the embedded code.
-/

/-- Claim C6 (counterexample): constructing a `TrafficSignal` with zero
phases is NOT rejected — `__init__` completes normally (`cycle_length`
sums to 0 over no phases) and the failure is deferred: the first use,
`get_current_phase` inside `update`, is the point that raises
(`IndexError`, modelled by `none`). -/
theorem zero_phase_signal_constructs :
    (TrafficSignal.init 0 0 (0, 0) [] false 0).phases = [] ∧
    (TrafficSignal.init 0 0 (0, 0) [] false 0).cycle_length = 0 ∧
    (TrafficSignal.init 0 0 (0, 0) [] false 0).get_current_phase = none ∧
    (TrafficSignal.init 0 0 (0, 0) [] false 0).update 1 = none :=
  ⟨rfl, rfl, rfl, rfl⟩

/-- Claim C6 (amended): constructing a traffic signal with zero phases is
not a construction-time error; the constructor accepts the empty phase
list (with `cycle_length = 0`), and every later use of the signal fails:
`get_current_phase` and `update` raise on the empty phase list. -/
theorem zero_phase_signal_deferred_failure (signal_id node_id : Nat)
    (position : ℚ × ℚ) (coordinated : Bool) (offset dt : ℚ) :
    (TrafficSignal.init signal_id node_id position [] coordinated offset).cycle_length = 0 ∧
    (TrafficSignal.init signal_id node_id position [] coordinated offset).get_current_phase
      = none ∧
    (TrafficSignal.init signal_id node_id position [] coordinated offset).update dt = none := by
  refine ⟨rfl, rfl, ?_⟩
  simp [TrafficSignal.update, TrafficSignal.get_current_phase, TrafficSignal.init]

/-- Claim C7: every successful `update` keeps the sub-state sequence on
the cycle GREEN → YELLOW → RED → GREEN (a step either stays put or moves
to the successor state, never skips or reorders), with the transitions
driven exactly by the configured thresholds: GREEN → YELLOW once
`phase.duration` has elapsed, YELLOW → RED once `phase.yellow_duration`
has elapsed — simultaneously advancing the phase index mod the phase
count and resetting the timer — and RED → GREEN after the fixed 1.0 s
all-red clearance. Any timer reset accompanies a transition. -/
theorem signal_update_follows_cycle (s s' : TrafficSignal) (dt : ℚ)
    (ph : SignalPhase) (hph : s.get_current_phase = some ph)
    (h : s.update dt = some s') :
    (s'.current_state = s.current_state ∨
      s'.current_state = s.current_state.nextState) ∧
    (s.current_state = SignalState.GREEN →
      (s'.current_state = SignalState.YELLOW ↔ ph.duration ≤ s.time_in_phase + dt)) ∧
    (s.current_state = SignalState.YELLOW →
      (s'.current_state = SignalState.RED ↔ ph.yellow_duration ≤ s.time_in_phase + dt)) ∧
    (s.current_state = SignalState.YELLOW → s'.current_state = SignalState.RED →
      s'.current_phase_index = (s.current_phase_index + 1) % s.phases.length ∧
      s'.time_in_phase = 0) ∧
    (s.current_state = SignalState.RED →
      (s'.current_state = SignalState.GREEN ↔ (1 : ℚ) ≤ s.time_in_phase + dt)) ∧
    (s'.current_state ≠ s.current_state → s'.time_in_phase = 0) := by
  rw [TrafficSignal.update, hph] at h
  rcases hst : s.current_state
  case RED =>
    simp only [hst, reduceCtorEq, if_false, if_neg, ite_false] at h
    simp at h
    by_cases hc : (1 : ℚ) ≤ s.time_in_phase + dt
    · rw [if_pos hc] at h
      obtain rfl := Option.some.inj h
      simp [hst, SignalState.nextState, hc]
    · rw [if_neg hc] at h
      obtain rfl := Option.some.inj h
      simp [hst, SignalState.nextState, hc]
  case YELLOW =>
    simp at h
    rw [hst] at h
    simp at h
    by_cases hc : ph.yellow_duration ≤ s.time_in_phase + dt
    · rw [if_pos hc] at h
      obtain rfl := Option.some.inj h
      simp [hst, SignalState.nextState, hc]
    · rw [if_neg hc] at h
      obtain rfl := Option.some.inj h
      simp [hst, SignalState.nextState, hc]
  case GREEN =>
    simp at h
    rw [hst] at h
    simp at h
    by_cases hc : ph.duration ≤ s.time_in_phase + dt
    · rw [if_pos hc] at h
      obtain rfl := Option.some.inj h
      simp [hst, SignalState.nextState, hc]
    · rw [if_neg hc] at h
      obtain rfl := Option.some.inj h
      simp [hst, SignalState.nextState, hc]

/-- Claim C7 witness: the demo signal (freshly constructed: RED, timer 0)
stepped by 1 s makes exactly the RED → GREEN clearance transition. -/
theorem signal_update_follows_cycle_witness :
    demoSignalG.current_state = demoSignal.current_state ∨
    demoSignalG.current_state = demoSignal.current_state.nextState := by
  have h : demoSignal.update 1 = some demoSignalG := by
    norm_num [TrafficSignal.update, TrafficSignal.get_current_phase, demoSignal,
      TrafficSignal.init, demoPhase, demoSignalG]
    rfl
  exact (signal_update_follows_cycle demoSignal demoSignalG 1 demoPhase rfl h).1

/-- Claim C10: a single `update` call with any positive `time_step`
performs at most one sub-state transition — the result either keeps the
sub-state (timer advanced by `time_step`) or moves to the single successor
sub-state with the timer reset to exactly 0, discarding any surplus beyond
the threshold. A `time_step` larger than the remaining phase time can
therefore never produce two transitions, and no surplus is carried over. -/
theorem signal_update_single_transition (s s' : TrafficSignal) (dt : ℚ)
    (hdt : 0 < dt) (h : s.update dt = some s') :
    (s'.current_state = s.current_state ∧
      s'.time_in_phase = s.time_in_phase + dt) ∨
    (s'.current_state = s.current_state.nextState ∧ s'.time_in_phase = 0) := by
  rw [TrafficSignal.update] at h
  rcases hph : s.get_current_phase with _ | ph
  · rw [hph] at h
    simp at h
  · rw [hph] at h
    rcases hst : s.current_state
    case RED =>
      simp at h
      rw [hst] at h
      simp at h
      by_cases hc : (1 : ℚ) ≤ s.time_in_phase + dt
      · rw [if_pos hc] at h
        obtain rfl := Option.some.inj h
        simp [hst, SignalState.nextState]
      · rw [if_neg hc] at h
        obtain rfl := Option.some.inj h
        simp [hst, SignalState.nextState]
    case YELLOW =>
      simp at h
      rw [hst] at h
      simp at h
      by_cases hc : ph.yellow_duration ≤ s.time_in_phase + dt
      · rw [if_pos hc] at h
        obtain rfl := Option.some.inj h
        simp [hst, SignalState.nextState]
      · rw [if_neg hc] at h
        obtain rfl := Option.some.inj h
        simp [hst, SignalState.nextState]
    case GREEN =>
      simp at h
      rw [hst] at h
      simp at h
      by_cases hc : ph.duration ≤ s.time_in_phase + dt
      · rw [if_pos hc] at h
        obtain rfl := Option.some.inj h
        simp [hst, SignalState.nextState]
      · rw [if_neg hc] at h
        obtain rfl := Option.some.inj h
        simp [hst, SignalState.nextState]

/-- Claim C10 witness: stepping the fresh demo signal (RED, timer 0) by
500 s — far beyond the 1 s clearance plus the 60 s green — yields exactly
one transition, to GREEN, with the timer reset to 0 and the 499 s surplus
discarded. -/
theorem signal_update_single_transition_witness :
    (demoSignalG.current_state = demoSignal.current_state ∧
      demoSignalG.time_in_phase = demoSignal.time_in_phase + 500) ∨
    (demoSignalG.current_state = demoSignal.current_state.nextState ∧
      demoSignalG.time_in_phase = 0) := by
  have h : demoSignal.update 500 = some demoSignalG := by
    norm_num [TrafficSignal.update, TrafficSignal.get_current_phase, demoSignal,
      TrafficSignal.init, demoPhase, demoSignalG]
    rfl
  exact signal_update_single_transition demoSignal demoSignalG 500 (by norm_num) h

/-- A demo car: mean personality draws (so aggressiveness = politeness
= 0.5 after clipping), three-node route. -/
def carDemo : Vehicle := Car.init 0 0 (0, 0) (0, 0) [0, 1, 2] 0.5 0.5

/-- Helper: with a leader at non-positive gap, `calculate_acceleration`
reduces to the clamped, aggressiveness-scaled free-flow term. -/
lemma calc_accel_gap_le_zero (veh : Vehicle) (sqrt_accel_decel ld ls v0 : ℚ)
    (h : ld ≤ 0) :
    veh.calculate_acceleration sqrt_accel_decel (some ld) (some ls) v0 =
      npClip (veh.max_acceleration * (1 - (veh.speed / v0) ^ 4) *
          (0.5 + 0.5 * veh.aggressiveness))
        (-veh.max_deceleration) veh.max_acceleration := by
  have hlt : ¬ ld > 0 := not_lt.mpr h
  unfold Vehicle.calculate_acceleration
  simp only []
  rw [if_neg hlt]

lemma update_position_speed (veh : Vehicle) (norm_dist : ℚ) (new_position : ℚ × ℚ)
    (time_step : ℚ) : (veh.update_position norm_dist new_position time_step).speed = veh.speed :=
  rfl

lemma update_position_accel (veh : Vehicle) (norm_dist : ℚ) (new_position : ℚ × ℚ)
    (time_step : ℚ) :
    (veh.update_position norm_dist new_position time_step).acceleration = veh.acceleration :=
  rfl

lemma update_position_edge (veh : Vehicle) (norm_dist : ℚ) (new_position : ℚ × ℚ)
    (time_step : ℚ) :
    (veh.update_position norm_dist new_position time_step).current_edge = veh.current_edge :=
  rfl

lemma update_position_completed (veh : Vehicle) (norm_dist : ℚ) (new_position : ℚ × ℚ)
    (time_step : ℚ) :
    (veh.update_position norm_dist new_position time_step).completed = veh.completed :=
  rfl

/-- Helper: field-level characterisation of every successful
`_update_vehicle_position` call on an active vehicle (route of length ≥ 2,
non-null current edge): the new speed is `max 0 (v + a·Δt)` for the stored
acceleration, the vehicle leaves the edge iff the single-tick displacement
`newSpeed·Δt` reaches half the edge length, an advance goes to the edge
`(v, route[i+1], 0)` for the first occurrence `i` of `v` in the route, and
a completion happens exactly when `v` is absent from the route or is its
last element. -/
lemma updateVehiclePosition_fields
    (edge_info : EdgeInfo) (signal : Option TrafficSignal) (edge_list : List Vehicle)
    (node_pos : ℚ × ℚ) (norm_dist sqrt_accel_decel time_step : ℚ)
    (veh veh' : Vehicle) (mr : MoveResult) (u v k : Nat)
    (hroute : ¬ veh.route.length < 2) (he : veh.current_edge = some (u, v, k))
    (h : updateVehiclePosition edge_info signal edge_list node_pos norm_dist
      sqrt_accel_decel time_step veh = some (veh', mr)) :
    veh'.speed = max 0 (veh.speed + veh'.acceleration * time_step) ∧
    (mr = MoveResult.stay ↔ ¬ veh'.speed * time_step ≥ edge_info.length * 0.5) ∧
    (mr = MoveResult.stay →
      veh'.current_edge = veh.current_edge ∧ veh'.completed = veh.completed) ∧
    (∀ e, mr = MoveResult.advance e → veh'.current_edge = some e ∧
      ∃ ri, veh.route.findIdx? (fun n => n == v) = some ri ∧
        ri < veh.route.length - 1 ∧
        ∃ nn, veh.route[ri + 1]? = some nn ∧ e = (v, nn, 0)) ∧
    (mr = MoveResult.complete → veh'.completed = true ∧
      (veh.route.findIdx? (fun n => n == v) = none ∨
        ∃ ri, veh.route.findIdx? (fun n => n == v) = some ri ∧
          ¬ ri < veh.route.length - 1)) := by
  unfold updateVehiclePosition at h
  rw [if_neg hroute, he] at h
  simp only [] at h
  rcases hcg : signalCanProceed edge_info signal veh with _ | cp
  · rw [hcg] at h
    exact Option.noConfusion h
  · rw [hcg] at h
    simp only [] at h
    split at h
    case isTrue hthr =>
      rcases hfi : veh.route.findIdx? (fun n => n == v) with _ | ri
      · rw [hfi] at h
        simp only [] at h
        obtain ⟨h1, h2⟩ := Prod.mk.inj (Option.some.inj h)
        subst h1
        subst h2
        refine ⟨rfl, ?_, by simp, by simp, ?_⟩
        · simpa using not_not.mpr hthr
        · exact fun _ => ⟨rfl, Or.inl rfl⟩
      · rw [hfi] at h
        simp only [] at h
        by_cases hri : ri < veh.route.length - 1
        · rw [if_pos hri] at h
          rcases hnn : veh.route[ri + 1]? with _ | nn
          · rw [hnn] at h
            exact Option.noConfusion h
          · rw [hnn] at h
            simp only [] at h
            obtain ⟨h1, h2⟩ := Prod.mk.inj (Option.some.inj h)
            subst h1
            subst h2
            refine ⟨?_, ?_, by simp, ?_, by simp⟩
            · rw [update_position_speed, update_position_accel]
            · rw [update_position_speed]
              simpa using not_not.mpr hthr
            · intro e hadv
              obtain rfl := (MoveResult.advance.inj hadv.symm)
              exact ⟨by rw [update_position_edge], ri, rfl, hri, nn, hnn, rfl⟩
        · rw [if_neg hri] at h
          obtain ⟨h1, h2⟩ := Prod.mk.inj (Option.some.inj h)
          subst h1
          subst h2
          refine ⟨rfl, ?_, by simp, by simp, ?_⟩
          · simpa using not_not.mpr hthr
          · exact fun _ => ⟨rfl, Or.inr ⟨ri, rfl, hri⟩⟩
    case isFalse hthr =>
      obtain ⟨h1, h2⟩ := Prod.mk.inj (Option.some.inj h)
      subst h1
      subst h2
      refine ⟨rfl, ?_, by simp [he], by simp, by simp⟩
      simpa using hthr

/-- Helper: with no leader, `calculate_acceleration` is the clamped,
aggressiveness-scaled free-flow term. -/
lemma calc_accel_no_leader (veh : Vehicle) (sqrt_accel_decel v0 : ℚ) :
    veh.calculate_acceleration sqrt_accel_decel none none v0 =
      npClip (veh.max_acceleration * (1 - (veh.speed / v0) ^ 4) *
          (0.5 + 0.5 * veh.aggressiveness))
        (-veh.max_deceleration) veh.max_acceleration := by
  unfold Vehicle.calculate_acceleration
  simp only []

/-- Demo motorway edge of the fallback grid network: `maxspeed=100` km/h
(converted to m/s by `/3.6`), 4 lanes, length 300 m. -/
def busEdge : EdgeInfo :=
  { speed_limit := 100 / 3.6, lanes := 4, road_type := "motorway", length := 300 }

/-- A bus (class max speed 90/3.6 = 25 m/s) travelling at exactly its
class maximum on the 100 km/h motorway edge, alone on the edge.
Personality draws at the class means (aggressiveness 0.3). -/
def busAtMax : Vehicle :=
  { Bus.init 0 0 (0, 0) (0, 0) [0, 1, 2] 0.3 0.7 with
    speed := 25, current_edge := some (0, 1, 0) }

/-- Helper: a vehicle alone on its edge's occupancy list has no leader
(`vehicle_index = 0` is not `> 0`). -/
lemma leaderOnEdge_single (w veh : Vehicle) (h : w.id = veh.id) :
    leaderOnEdge [w] veh = (none, none) := by
  unfold leaderOnEdge
  rw [List.findIdx?_cons]
  rw [if_pos (by simp [h])]
  simp only []
  rw [if_neg (by omega : ¬ (0 : Nat) < 0)]

/-- The state of `busAtMax` after one tick (Δt = 1 s): the speed
25.268242 m/s now exceeds the 25 m/s class maximum, because line 307 of
`simulation.py` applies only the lower clamp `max(0.0, ...)`. -/
def busAfter : Vehicle :=
  { busAtMax with
    current_edge := some (0, 1, 0)
    waiting_at_signal := false
    speed := 12634121 / 500000
    acceleration := 134121 / 500000
    stats := { busAtMax.stats with total_time := busAtMax.stats.total_time + 1 } }

/-- Helper: the concrete one-tick update of `busAtMax` on the motorway
edge (no signal, no leader, Δt = 1). -/
lemma busStep_eq :
    updateVehiclePosition busEdge none [busAtMax] (0, 0) 0 0 1 busAtMax =
      some (busAfter, MoveResult.stay) := by
  unfold updateVehiclePosition
  rw [if_neg (by decide : ¬ busAtMax.route.length < 2)]
  rw [show busAtMax.current_edge = some (0, 1, 0) from rfl]
  simp only []
  rw [show signalCanProceed busEdge none busAtMax = some true from rfl]
  simp only [Bool.not_true]
  unfold tickAcceleration
  simp only []
  rw [leaderOnEdge_single _ _ (by rfl)]
  simp only [if_true]
  rw [calc_accel_no_leader]
  simp only []
  rw [show busAtMax.max_acceleration = (1.2 : ℚ) from rfl,
     show busAtMax.speed = (25 : ℚ) from rfl,
     show busAtMax.aggressiveness = npClip 0.3 0.1 0.5 from rfl,
     show busAtMax.max_deceleration = (3.0 : ℚ) from rfl,
     show busEdge.speed_limit = 100 / 3.6 from rfl,
     show busEdge.length = (300 : ℚ) from rfl]
  rw [show npClip ((1.2 : ℚ) * (1 - (25 / (100 / 3.6)) ^ 4) *
        (0.5 + 0.5 * npClip 0.3 0.1 0.5)) (-3.0) 1.2 = 134121 / 500000 from by
      norm_num [npClip, min_def, max_def]]
  rw [if_neg (by norm_num [max_def] :
    ¬ max 0 ((25 : ℚ) + 134121 / 500000 * 1) * 1 ≥ (300 : ℚ) * 0.5)]
  simp only [busAfter, Option.some.injEq, Prod.mk.injEq, Vehicle.mk.injEq,
    VehicleStats.mk.injEq]
  norm_num [max_def]
  exact ⟨by rw [show busAtMax.max_acceleration = (1.2 : ℚ) from rfl]; norm_num,
         by rw [show busAtMax.max_deceleration = (3.0 : ℚ) from rfl]; norm_num,
         by rw [show busAtMax.aggressiveness = npClip 0.3 0.1 0.5 from rfl]; norm_num [npClip]⟩

/-- Claim C1 (counterexample): the per-tick speed integration does NOT
clamp to the class maximum. A bus (class max 25 m/s) travelling at
exactly 25 m/s on a demo-network motorway edge (limit 100/3.6 ≈ 27.8 m/s),
with no signal and no leader, accelerates to 25.268242 m/s > 25 m/s in one
tick: the code computes `max(0.0, v + a·Δt)` with no upper clamp, so the
claimed invariant speed ≤ class.maxSpeed fails. -/
theorem speed_exceeds_class_max :
    updateVehiclePosition busEdge none [busAtMax] (0, 0) 0 0 1 busAtMax =
      some (busAfter, MoveResult.stay) ∧
    busAfter.max_speed = 25 ∧ busAfter.speed = 12634121 / 500000 ∧
    busAfter.max_speed < busAfter.speed := by
  refine ⟨busStep_eq, ?_, rfl, ?_⟩
  · rw [show busAfter.max_speed = 90 / 3.6 from rfl]
    norm_num
  · rw [show busAfter.max_speed = 90 / 3.6 from rfl,
        show busAfter.speed = 12634121 / 500000 from rfl]
    norm_num

/-- Claim C1 (amended): the per-tick speed integration applies only the
lower clamp: for every successful update of an active vehicle,
`newSpeed = max(0, v + accel·Δt)`, so the speed is never negative — but no
upper clamp to the class maximum is applied (the counterexample shows the
speed exceeding `class.maxSpeed`). -/
theorem speed_integration_lower_clamp_only
    (edge_info : EdgeInfo) (signal : Option TrafficSignal) (edge_list : List Vehicle)
    (node_pos : ℚ × ℚ) (norm_dist sqrt_accel_decel time_step : ℚ)
    (veh veh' : Vehicle) (mr : MoveResult) (u v k : Nat)
    (hroute : 2 ≤ veh.route.length) (he : veh.current_edge = some (u, v, k))
    (h : updateVehiclePosition edge_info signal edge_list node_pos norm_dist
      sqrt_accel_decel time_step veh = some (veh', mr)) :
    veh'.speed = max 0 (veh.speed + veh'.acceleration * time_step) ∧
    0 ≤ veh'.speed := by
  have hf := updateVehiclePosition_fields edge_info signal edge_list node_pos
    norm_dist sqrt_accel_decel time_step veh veh' mr u v k (not_lt.mpr hroute) he h
  refine ⟨hf.1, ?_⟩
  rw [hf.1]
  exact le_max_left 0 _

/-- Claim C1 witness: the amended theorem applied to the concrete bus
tick. -/
theorem speed_integration_lower_clamp_only_witness :
    busAfter.speed = max 0 (busAtMax.speed + busAfter.acceleration * 1) ∧
    0 ≤ busAfter.speed :=
  speed_integration_lower_clamp_only busEdge none [busAtMax] (0, 0) 0 0 1
    busAtMax busAfter MoveResult.stay 0 1 0 (by decide) rfl busStep_eq

/-- A short demo edge: 10 m long, 3 m/s limit. -/
def edgeC2 : EdgeInfo :=
  { speed_limit := 3, lanes := 1, road_type := "residential", length := 10 }

/-- The demo car cruising at the 3 m/s limit on edge `(0,1,0)`. -/
def carC2 : Vehicle := { carDemo with speed := 3, current_edge := some (0, 1, 0) }

/-- `carC2` after one tick on `edgeC2`: unchanged except the elapsed
time (the IDM acceleration is 0 at the desired speed). -/
def carC2After : Vehicle :=
  { carC2 with
    current_edge := some (0, 1, 0)
    waiting_at_signal := false
    speed := 3
    acceleration := 0
    stats := { carC2.stats with total_time := carC2.stats.total_time + 1 } }

/-- `carC2` after a second tick on `edgeC2`. -/
def carC2After2 : Vehicle :=
  { carC2After with
    current_edge := some (0, 1, 0)
    waiting_at_signal := false
    speed := 3
    acceleration := 0
    stats := { carC2After.stats with total_time := carC2After.stats.total_time + 1 } }

/-- Helper: first tick of `carC2` on the 10 m edge — moves 3 m < 5 m, so
it stays. -/
lemma carC2Step1_eq :
    updateVehiclePosition edgeC2 none [carC2] (0, 0) 0 0 1 carC2 =
      some (carC2After, MoveResult.stay) := by
  unfold updateVehiclePosition
  rw [if_neg (by decide : ¬ carC2.route.length < 2)]
  rw [show carC2.current_edge = some (0, 1, 0) from rfl]
  simp only []
  rw [show signalCanProceed edgeC2 none carC2 = some true from rfl]
  simp only [Bool.not_true]
  unfold tickAcceleration
  simp only []
  rw [leaderOnEdge_single _ _ (by rfl)]
  simp only [if_true]
  rw [calc_accel_no_leader]
  simp only []
  rw [show carC2.max_acceleration = (2.5 : ℚ) from rfl,
     show carC2.speed = (3 : ℚ) from rfl,
     show carC2.aggressiveness = npClip 0.5 0.2 0.8 from rfl,
     show carC2.max_deceleration = (4.5 : ℚ) from rfl,
     show edgeC2.speed_limit = (3 : ℚ) from rfl,
     show edgeC2.length = (10 : ℚ) from rfl]
  rw [show npClip ((2.5 : ℚ) * (1 - (3 / 3) ^ 4) * (0.5 + 0.5 * npClip 0.5 0.2 0.8))
        (-4.5) 2.5 = 0 from by norm_num [npClip, min_def, max_def]]
  rw [if_neg (by norm_num [max_def] :
    ¬ max 0 ((3 : ℚ) + 0 * 1) * 1 ≥ (10 : ℚ) * 0.5)]
  simp only [carC2After, Option.some.injEq, Prod.mk.injEq, Vehicle.mk.injEq,
    VehicleStats.mk.injEq]
  norm_num [max_def]
  exact ⟨by rw [show carC2.max_acceleration = (2.5 : ℚ) from rfl]; norm_num,
         by rw [show carC2.max_deceleration = (4.5 : ℚ) from rfl]; norm_num,
         by rw [show carC2.aggressiveness = npClip 0.5 0.2 0.8 from rfl]; norm_num [npClip]⟩

/-- Helper: second tick — again 3 m < 5 m, so it stays, although the
cumulative in-edge progress is now 6 m ≥ 5 m. -/
lemma carC2Step2_eq :
    updateVehiclePosition edgeC2 none [carC2After] (0, 0) 0 0 1 carC2After =
      some (carC2After2, MoveResult.stay) := by
  unfold updateVehiclePosition
  rw [if_neg (by decide : ¬ carC2After.route.length < 2)]
  rw [show carC2After.current_edge = some (0, 1, 0) from rfl]
  simp only []
  rw [show signalCanProceed edgeC2 none carC2After = some true from rfl]
  simp only [Bool.not_true]
  unfold tickAcceleration
  simp only []
  rw [leaderOnEdge_single _ _ (by rfl)]
  simp only [if_true]
  rw [calc_accel_no_leader]
  simp only []
  rw [show carC2After.max_acceleration = (2.5 : ℚ) from rfl,
     show carC2After.speed = (3 : ℚ) from rfl,
     show carC2After.aggressiveness = npClip 0.5 0.2 0.8 from rfl,
     show carC2After.max_deceleration = (4.5 : ℚ) from rfl,
     show edgeC2.speed_limit = (3 : ℚ) from rfl,
     show edgeC2.length = (10 : ℚ) from rfl]
  rw [show npClip ((2.5 : ℚ) * (1 - (3 / 3) ^ 4) * (0.5 + 0.5 * npClip 0.5 0.2 0.8))
        (-4.5) 2.5 = 0 from by norm_num [npClip, min_def, max_def]]
  rw [if_neg (by norm_num [max_def] :
    ¬ max 0 ((3 : ℚ) + 0 * 1) * 1 ≥ (10 : ℚ) * 0.5)]
  simp only [carC2After2, Option.some.injEq, Prod.mk.injEq, Vehicle.mk.injEq,
    VehicleStats.mk.injEq]
  norm_num [max_def]
  exact ⟨by rw [show carC2After.max_acceleration = (2.5 : ℚ) from rfl]; norm_num,
         by rw [show carC2After.max_deceleration = (4.5 : ℚ) from rfl]; norm_num,
         by rw [show carC2After.aggressiveness = npClip 0.5 0.2 0.8 from rfl]; norm_num [npClip]⟩

/-- Claim C2 (counterexample): the edge-transition test is NOT cumulative.
A car holding 3 m/s on a 10 m edge accumulates 6 m ≥ 5 m = 50% of the edge
length over two ticks, yet after the second tick it is still on edge
`(0,1,0)` and not completed: the code compares only the current tick's
displacement `newSpeed·Δt` (3 m < 5 m each tick) against the 50%
threshold, never cumulative in-edge progress. -/
theorem cumulative_progress_no_transition :
    updateVehiclePosition edgeC2 none [carC2] (0, 0) 0 0 1 carC2 =
      some (carC2After, MoveResult.stay) ∧
    updateVehiclePosition edgeC2 none [carC2After] (0, 0) 0 0 1 carC2After =
      some (carC2After2, MoveResult.stay) ∧
    carC2After.speed * 1 + carC2After2.speed * 1 ≥ edgeC2.length * 0.5 ∧
    carC2After2.current_edge = carC2.current_edge ∧
    carC2After2.completed = false := by
  refine ⟨carC2Step1_eq, carC2Step2_eq, ?_, rfl, rfl⟩
  rw [show carC2After.speed = (3 : ℚ) from rfl,
      show carC2After2.speed = (3 : ℚ) from rfl,
      show edgeC2.length = (10 : ℚ) from rfl]
  norm_num

/-- Claim C2 (amended): a vehicle transitions edges when the CURRENT
TICK's displacement `newSpeed·Δt` (not cumulative in-edge progress)
reaches 50% of the current edge's length; at that point it advances to
the next edge `(v, route[i+1], 0)` on its route (`i` the first index of
the downstream node `v` in the route), or is marked completed (and, per
`MoveResult`, detached) when `v` is the route's last node or absent from
the route. -/
theorem transition_on_tick_displacement
    (edge_info : EdgeInfo) (signal : Option TrafficSignal) (edge_list : List Vehicle)
    (node_pos : ℚ × ℚ) (norm_dist sqrt_accel_decel time_step : ℚ)
    (veh veh' : Vehicle) (mr : MoveResult) (u v k : Nat)
    (hroute : 2 ≤ veh.route.length) (he : veh.current_edge = some (u, v, k))
    (h : updateVehiclePosition edge_info signal edge_list node_pos norm_dist
      sqrt_accel_decel time_step veh = some (veh', mr)) :
    (mr ≠ MoveResult.stay ↔ veh'.speed * time_step ≥ edge_info.length * 0.5) ∧
    (∀ e, mr = MoveResult.advance e → veh'.current_edge = some e ∧
      ∃ ri, veh.route.findIdx? (fun n => n == v) = some ri ∧
        ri < veh.route.length - 1 ∧
        ∃ nn, veh.route[ri + 1]? = some nn ∧ e = (v, nn, 0)) ∧
    (mr = MoveResult.complete → veh'.completed = true ∧
      (veh.route.findIdx? (fun n => n == v) = none ∨
        ∃ ri, veh.route.findIdx? (fun n => n == v) = some ri ∧
          ¬ ri < veh.route.length - 1)) := by
  have hf := updateVehiclePosition_fields edge_info signal edge_list node_pos
    norm_dist sqrt_accel_decel time_step veh veh' mr u v k (not_lt.mpr hroute) he h
  refine ⟨?_, hf.2.2.2.1, hf.2.2.2.2⟩
  have h2 := hf.2.1
  constructor
  · intro hne
    by_contra hq
    exact hne (h2.mpr hq)
  · intro hge hst
    exact (h2.mp hst) hge

/-- Claim C2 witness: the amended theorem applied to the first concrete
tick of `carC2` (which stays: 3 m < 5 m). -/
theorem transition_on_tick_displacement_witness :
    (MoveResult.stay ≠ MoveResult.stay ↔
      carC2After.speed * 1 ≥ edgeC2.length * 0.5) ∧
    (∀ e, MoveResult.stay = MoveResult.advance e →
      carC2After.current_edge = some e ∧
      ∃ ri, carC2.route.findIdx? (fun n => n == 1) = some ri ∧
        ri < carC2.route.length - 1 ∧
        ∃ nn, carC2.route[ri + 1]? = some nn ∧ e = (1, nn, 0)) ∧
    (MoveResult.stay = MoveResult.complete → carC2After.completed = true ∧
      (carC2.route.findIdx? (fun n => n == 1) = none ∨
        ∃ ri, carC2.route.findIdx? (fun n => n == 1) = some ri ∧
          ¬ ri < carC2.route.length - 1)) :=
  transition_on_tick_displacement edgeC2 none [carC2] (0, 0) 0 0 1
    carC2 carC2After MoveResult.stay 0 1 0 (by decide) rfl carC2Step1_eq

/-- Claim C3 (counterexample): a spawn whose route cannot be resolved is
dropped WITHOUT incrementing the spawned statistic: only the vehicle-id
counter advances (`vehicle_id` is taken before the route check), while
`stats['vehicles_spawned']` — incremented only on the success path — stays
put. The claim that "the spawned counter increments" on a drop is false. -/
theorem dropped_spawn_not_counted :
    (spawnVehicle SimState.fresh "car" (0, 0) (1, 1) [] 0 0.5 0.5).stats.vehicles_spawned
      = SimState.fresh.stats.vehicles_spawned ∧
    (spawnVehicle SimState.fresh "car" (0, 0) (1, 1) [] 0 0.5 0.5).stats.vehicles_spawned
      ≠ SimState.fresh.stats.vehicles_spawned + 1 ∧
    (spawnVehicle SimState.fresh "car" (0, 0) (1, 1) [] 0 0.5 0.5).vehicles = [] ∧
    (spawnVehicle SimState.fresh "car" (0, 0) (1, 1) [] 0 0.5 0.5).next_vehicle_id
      = SimState.fresh.next_vehicle_id + 1 :=
  ⟨rfl, by decide, rfl, rfl⟩

/-- Claim C3 (amended): a spawn intent whose route cannot be resolved
(empty or fewer than 2 nodes) is dropped without error: the whole effect
is one increment of the vehicle-id counter — the active-vehicle dict, the
occupancy index, and every statistic (including the spawned counter,
contrary to the claim) are unchanged, and nothing is retried. -/
theorem dropped_spawn_effects (s : SimState) (vehicle_type : String)
    (origin destination : ℚ × ℚ) (route : List Nat) (now ad pd : ℚ)
    (h : route.length < 2) :
    spawnVehicle s vehicle_type origin destination route now ad pd =
      { s with next_vehicle_id := s.next_vehicle_id + 1 } := by
  unfold spawnVehicle
  simp only []
  rw [if_pos (Or.inr h)]

/-- Claim C3 witness: the amended theorem applied to an empty-route spawn
on the fresh state. -/
theorem dropped_spawn_effects_witness :
    spawnVehicle SimState.fresh "car" (0, 0) (1, 1) [] 0 0.5 0.5 =
      { SimState.fresh with next_vehicle_id := SimState.fresh.next_vehicle_id + 1 } :=
  dropped_spawn_effects SimState.fresh "car" (0, 0) (1, 1) [] 0 0.5 0.5 (by decide)

/-- A 700 m single-lane edge with a 10 m/s limit (capacity 100). -/
def edgeC5 : EdgeInfo :=
  { speed_limit := 10, lanes := 1, road_type := "residential", length := 700 }

/-- A vehicle moving at 30 m/s — three times `edgeC5`'s speed limit (it
can arrive from a faster upstream edge keeping its speed). -/
def fastCar : Vehicle := { carDemo with speed := 30 }

/-- Claim C5 (counterexample): `get_congestion_level` is NOT clamped to
[0, 1]. With one vehicle at 30 m/s on the 700 m, 10 m/s edge the speed
term is 1 - 30/10 = -2, giving 0.6·0.01 + 0.4·(-2) = -0.794; the code
caps only from above with `min(1.0, ...)`, so it returns -0.794 < 0. -/
theorem congestion_below_zero :
    get_congestion_level edgeC5 [fastCar] = -(397 / 500) ∧
    get_congestion_level edgeC5 [fastCar] < 0 := by
  have hdr : densityQuot edgeC5 [fastCar] = 1 / 100 := by
    unfold densityQuot
    simp only []
    rw [show edgeC5.length = (700 : ℚ) from rfl, show edgeC5.lanes = 1 from rfl]
    rw [if_pos (by norm_num : (700 : ℚ) / 7.0 * ((1 : Nat) : ℚ) > 0)]
    norm_num
  have hsr : speedQuot edgeC5 [fastCar] = -2 := by
    unfold speedQuot
    simp only [List.isEmpty_cons, Bool.false_eq_true, if_false]
    simp only [List.map_cons, List.map_nil, List.sum_cons, List.sum_nil,
      List.length_cons, List.length_nil]
    rw [show fastCar.speed = (30 : ℚ) from rfl,
        show edgeC5.speed_limit = (10 : ℚ) from rfl]
    rw [if_pos (by norm_num : (10 : ℚ) > 0)]
    norm_num
  have : get_congestion_level edgeC5 [fastCar] = -(397 / 500) := by
    unfold get_congestion_level
    simp only []
    rw [hdr, hsr]
    norm_num [min_def]
  exact ⟨this, by rw [this]; norm_num⟩

/-- Claim C5 (amended): the congestion level is
`min(1, 0.6·densityRatio + 0.4·speedRatio)` with the ratios exactly as the
claim defines them (density 0 when the capacity is not positive; speed
term 0 when the edge is empty or the limit not positive). It is always
≤ 1, and ≥ 0 whenever the speed term is ≥ 0 (i.e. mean speed within the
limit) — but it is NOT clamped below, so it can be negative when the mean
speed exceeds the limit (see the counterexample). -/
theorem congestion_capped_above_only (edge_info : EdgeInfo) (l : List Vehicle) :
    get_congestion_level edge_info l =
      min 1 (0.6 * densityQuot edge_info l + 0.4 * speedQuot edge_info l) ∧
    get_congestion_level edge_info l ≤ 1 ∧
    (0 ≤ speedQuot edge_info l → 0 ≤ get_congestion_level edge_info l) := by
  refine ⟨rfl, min_le_left _ _, ?_⟩
  intro hsr
  have hdr : 0 ≤ densityQuot edge_info l := by
    unfold densityQuot
    simp only []
    split
    · exact div_nonneg (Nat.cast_nonneg _) (le_of_lt (by assumption))
    · exact le_refl 0
  have hc : 0 ≤ 0.6 * densityQuot edge_info l + 0.4 * speedQuot edge_info l :=
    add_nonneg (mul_nonneg (by norm_num) hdr) (mul_nonneg (by norm_num) hsr)
  exact le_min (by norm_num) hc

/-- Claim C5 witness: the amended theorem evaluated at the empty edge
(speed term 0, so the result is within [0, 1]). -/
theorem congestion_capped_above_only_witness :
    get_congestion_level edgeC5 [] =
      min 1 (0.6 * densityQuot edgeC5 [] + 0.4 * speedQuot edgeC5 []) ∧
    get_congestion_level edgeC5 [] ≤ 1 ∧
    0 ≤ get_congestion_level edgeC5 [] := by
  have h := congestion_capped_above_only edgeC5 []
  exact ⟨h.1, h.2.1, h.2.2 (le_of_eq (show (0 : ℚ) = speedQuot edgeC5 [] from rfl))⟩

/-- Claim C4 (counterexample): a leader at gap exactly 0 does NOT produce
the hard-brake `-max_deceleration = -4.5`; the code only subtracts the
interaction term when the gap is positive, so a stopped car with a leader
at gap 0 gets the aggressiveness-scaled free-flow acceleration
`2.5 * (1 - 0) * 0.75 = 1.875` — full throttle, not a brake. (The
`sqrt_accel_decel` argument is irrelevant on this path; 0 is passed.) -/
theorem zero_gap_not_hard_brake :
    carDemo.calculate_acceleration 0 (some 0) (some 5) 10 = 15 / 8 ∧
    -carDemo.max_deceleration = -(9 / 2 : ℚ) ∧
    (15 / 8 : ℚ) ≠ -(9 / 2) := by
  have hagg : carDemo.aggressiveness = npClip 0.5 0.2 0.8 := rfl
  have hspeed : carDemo.speed = 0 := rfl
  have hmaxa : carDemo.max_acceleration = 2.5 := rfl
  have hmaxd : carDemo.max_deceleration = 4.5 := rfl
  refine ⟨?_, by rw [hmaxd]; norm_num, by norm_num⟩
  have e1 := calc_accel_gap_le_zero carDemo 0 0 5 10 (le_refl 0)
  rw [e1, hagg, hspeed, hmaxa, hmaxd]
  norm_num [npClip, min_def, max_def]

/-- Claim C4 (amended): whenever a leader exists at gap s ≤ 0, the
interaction term is skipped (rather than hard-braking at `-maxDecel`):
the result is the aggressiveness-scaled free-flow IDM acceleration,
clamped to `[-maxDecel, maxAccel]`. In particular the gap never appears
as a divisor (the formula is independent of the gap and of the
square-root term), so no division by zero occurs and no error surfaces. -/
theorem nonpositive_gap_skips_interaction (veh : Vehicle)
    (sqrt_accel_decel ld ls v0 : ℚ) (h : ld ≤ 0) :
    veh.calculate_acceleration sqrt_accel_decel (some ld) (some ls) v0 =
      npClip (veh.max_acceleration * (1 - (veh.speed / v0) ^ 4) *
          (0.5 + 0.5 * veh.aggressiveness))
        (-veh.max_deceleration) veh.max_acceleration :=
  calc_accel_gap_le_zero veh sqrt_accel_decel ld ls v0 h

/-- Claim C4 witness: the amended theorem applied at gap 0 for the demo
car. -/
theorem nonpositive_gap_skips_interaction_witness :
    carDemo.calculate_acceleration 0 (some 0) (some 5) 10 =
      npClip (carDemo.max_acceleration * (1 - (carDemo.speed / 10) ^ 4) *
          (0.5 + 0.5 * carDemo.aggressiveness))
        (-carDemo.max_deceleration) carDemo.max_acceleration :=
  nonpositive_gap_skips_interaction carDemo 0 0 5 10 (le_refl 0)

lemma allIds_cons (k : EdgeKey) (l : List Nat) (rest : List (EdgeKey × List Nat)) :
    allIds ((k, l) :: rest) = l ++ allIds rest := rfl

lemma occList_occAppend_self (m : List (EdgeKey × List Nat)) (e : EdgeKey) (i : Nat) :
    occList (occAppend m e i) e = occList m e ++ [i] := by
  induction m with
  | nil => simp [occAppend, occList]
  | cons p rest ih =>
    obtain ⟨k, l⟩ := p
    by_cases hke : k = e
    · subst hke
      simp [occAppend, occList]
    · simp [occAppend, occList, hke, ih]

lemma occList_occAppend_ne (m : List (EdgeKey × List Nat)) (e f : EdgeKey) (i : Nat)
    (h : f ≠ e) : occList (occAppend m e i) f = occList m f := by
  have hef : ¬ e = f := fun hh => h hh.symm
  induction m with
  | nil => simp [occAppend, occList, hef]
  | cons p rest ih =>
    obtain ⟨k, l⟩ := p
    by_cases hke : k = e
    · subst hke
      simp [occAppend, occList, hef]
    · by_cases hkf : k = f
      · subst hkf
        simp [occAppend, occList, hke]
      · simp [occAppend, occList, hke, hkf, ih]

lemma occList_occErase_self (m : List (EdgeKey × List Nat)) (e : EdgeKey) (i : Nat) :
    occList (occErase m e i) e = (occList m e).erase i := by
  induction m with
  | nil => simp [occErase, occList]
  | cons p rest ih =>
    obtain ⟨k, l⟩ := p
    by_cases hke : k = e
    · subst hke
      simp [occErase, occList]
    · simp [occErase, occList, hke, ih]

lemma occList_occErase_ne (m : List (EdgeKey × List Nat)) (e f : EdgeKey) (i : Nat)
    (h : f ≠ e) : occList (occErase m e i) f = occList m f := by
  have hef : ¬ e = f := fun hh => h hh.symm
  induction m with
  | nil => simp [occErase, occList, hef]
  | cons p rest ih =>
    obtain ⟨k, l⟩ := p
    by_cases hke : k = e
    · subst hke
      simp [occErase, occList, hef]
    · by_cases hkf : k = f
      · subst hkf
        simp [occErase, occList, hke]
      · simp [occErase, occList, hke, hkf, ih]

lemma keys_occAppend (m : List (EdgeKey × List Nat)) (e : EdgeKey) (i : Nat) :
    (occAppend m e i).map Prod.fst =
      if e ∈ m.map Prod.fst then m.map Prod.fst else m.map Prod.fst ++ [e] := by
  induction m with
  | nil => simp [occAppend]
  | cons p rest ih =>
    obtain ⟨k, l⟩ := p
    by_cases hke : k = e
    · subst hke
      simp [occAppend]
    · have hek : ¬ e = k := fun hh => hke hh.symm
      rw [show occAppend ((k, l) :: rest) e i = (k, l) :: occAppend rest e i from by
        simp [occAppend, hke]]
      simp only [List.map_cons, ih]
      by_cases hmem : e ∈ rest.map Prod.fst
      · rw [if_pos hmem, if_pos (by simp [hmem])]
      · rw [if_neg hmem, if_neg (by simp [hek, hmem]), List.cons_append]

lemma keys_occErase (m : List (EdgeKey × List Nat)) (e : EdgeKey) (i : Nat) :
    (occErase m e i).map Prod.fst =
      if e ∈ m.map Prod.fst then m.map Prod.fst else m.map Prod.fst ++ [e] := by
  induction m with
  | nil => simp [occErase]
  | cons p rest ih =>
    obtain ⟨k, l⟩ := p
    by_cases hke : k = e
    · subst hke
      simp [occErase]
    · have hek : ¬ e = k := fun hh => hke hh.symm
      rw [show occErase ((k, l) :: rest) e i = (k, l) :: occErase rest e i from by
        simp [occErase, hke]]
      simp only [List.map_cons, ih]
      by_cases hmem : e ∈ rest.map Prod.fst
      · rw [if_pos hmem, if_pos (by simp [hmem])]
      · rw [if_neg hmem, if_neg (by simp [hek, hmem]), List.cons_append]

lemma keys_nodup_occAppend (m : List (EdgeKey × List Nat)) (e : EdgeKey) (i : Nat)
    (h : (m.map Prod.fst).Nodup) : ((occAppend m e i).map Prod.fst).Nodup := by
  rw [keys_occAppend]
  by_cases hmem : e ∈ m.map Prod.fst
  · rw [if_pos hmem]
    exact h
  · rw [if_neg hmem]
    rw [List.nodup_append]
    refine ⟨h, List.nodup_singleton e, fun a ha hae => hmem ?_⟩
    rw [List.mem_singleton] at hae
    exact hae ▸ ha

lemma keys_nodup_occErase (m : List (EdgeKey × List Nat)) (e : EdgeKey) (i : Nat)
    (h : (m.map Prod.fst).Nodup) : ((occErase m e i).map Prod.fst).Nodup := by
  rw [keys_occErase]
  by_cases hmem : e ∈ m.map Prod.fst
  · rw [if_pos hmem]
    exact h
  · rw [if_neg hmem]
    rw [List.nodup_append]
    refine ⟨h, List.nodup_singleton e, fun a ha hae => hmem ?_⟩
    rw [List.mem_singleton] at hae
    exact hae ▸ ha

lemma allIds_occAppend_perm (m : List (EdgeKey × List Nat)) (e : EdgeKey) (i : Nat) :
    List.Perm (allIds (occAppend m e i)) (i :: allIds m) := by
  induction m with
  | nil => simp [occAppend, allIds]
  | cons p rest ih =>
    obtain ⟨k, l⟩ := p
    by_cases hke : k = e
    · subst hke
      rw [show occAppend ((k, l) :: rest) k i = (k, l ++ [i]) :: rest from by
        simp [occAppend]]
      rw [allIds_cons, allIds_cons, List.append_assoc]
      exact List.perm_middle
    · rw [show occAppend ((k, l) :: rest) e i = (k, l) :: occAppend rest e i from by
        simp [occAppend, hke]]
      rw [allIds_cons, allIds_cons]
      exact (List.Perm.append_left l ih).trans List.perm_middle

lemma allIds_occErase_sublist (m : List (EdgeKey × List Nat)) (e : EdgeKey) (i : Nat) :
    List.Sublist (allIds (occErase m e i)) (allIds m) := by
  induction m with
  | nil => simp [occErase, allIds]
  | cons p rest ih =>
    obtain ⟨k, l⟩ := p
    by_cases hke : k = e
    · subst hke
      rw [show occErase ((k, l) :: rest) k i = (k, l.erase i) :: rest from by
        simp [occErase]]
      rw [allIds_cons, allIds_cons]
      exact (List.erase_sublist i l).append (List.Sublist.refl _)
    · rw [show occErase ((k, l) :: rest) e i = (k, l) :: occErase rest e i from by
        simp [occErase, hke]]
      rw [allIds_cons, allIds_cons]
      exact (List.Sublist.refl l).append ih

lemma mem_allIds_of_mem_occList (m : List (EdgeKey × List Nat)) (e : EdgeKey) (i : Nat)
    (h : i ∈ occList m e) : i ∈ allIds m := by
  induction m with
  | nil => simp [occList] at h
  | cons p rest ih =>
    obtain ⟨k, l⟩ := p
    rw [allIds_cons]
    by_cases hke : k = e
    · subst hke
      simp only [occList, if_pos rfl] at h
      exact List.mem_append_left _ h
    · simp only [occList, if_neg hke] at h
      exact List.mem_append_right _ (ih h)

lemma mem_keys_of_mem_occList (m : List (EdgeKey × List Nat)) (e : EdgeKey) (i : Nat)
    (h : i ∈ occList m e) : e ∈ m.map Prod.fst := by
  induction m with
  | nil => simp [occList] at h
  | cons p rest ih =>
    obtain ⟨k, l⟩ := p
    by_cases hke : k = e
    · subst hke
      simp
    · simp only [occList, if_neg hke] at h
      simp [ih h]

lemma exists_occList_of_mem_allIds (m : List (EdgeKey × List Nat))
    (hk : (m.map Prod.fst).Nodup) (i : Nat) (h : i ∈ allIds m) :
    ∃ e, i ∈ occList m e := by
  induction m with
  | nil => simp [allIds] at h
  | cons p rest ih =>
    obtain ⟨k, l⟩ := p
    rw [allIds_cons] at h
    simp only [List.map_cons, List.nodup_cons] at hk
    rcases List.mem_append.mp h with hl | hr
    · exact ⟨k, by simp [occList, hl]⟩
    · obtain ⟨e, he⟩ := ih hk.2 hr
      have hek : k ≠ e := by
        intro hh
        exact hk.1 (hh ▸ mem_keys_of_mem_occList rest e i he)
      exact ⟨e, by simp [occList, if_neg hek, he]⟩

lemma occList_nodup (m : List (EdgeKey × List Nat)) (e : EdgeKey)
    (h : (allIds m).Nodup) : (occList m e).Nodup := by
  induction m with
  | nil => simp [occList]
  | cons p rest ih =>
    obtain ⟨k, l⟩ := p
    rw [allIds_cons] at h
    by_cases hke : k = e
    · subst hke
      simpa [occList] using h.of_append_left
    · simp only [occList, if_neg hke]
      exact ih h.of_append_right

lemma occList_unique_edge (m : List (EdgeKey × List Nat))
    (hk : (m.map Prod.fst).Nodup) (hn : (allIds m).Nodup) (i : Nat) (e₁ e₂ : EdgeKey)
    (h1 : i ∈ occList m e₁) (h2 : i ∈ occList m e₂) : e₁ = e₂ := by
  induction m with
  | nil => simp [occList] at h1
  | cons p rest ih =>
    obtain ⟨k, l⟩ := p
    rw [allIds_cons] at hn
    simp only [List.map_cons, List.nodup_cons] at hk
    have hdisj := List.disjoint_of_nodup_append hn
    by_cases hk1 : k = e₁ <;> by_cases hk2 : k = e₂
    · rw [← hk1, ← hk2]
    · simp only [occList, if_pos hk1, if_neg hk2] at h1 h2
      exact absurd (mem_allIds_of_mem_occList rest e₂ i h2) (hdisj h1)
    · simp only [occList, if_neg hk1, if_pos hk2] at h1 h2
      exact absurd (mem_allIds_of_mem_occList rest e₁ i h1) (hdisj h2)
    · simp only [occList, if_neg hk1, if_neg hk2] at h1 h2
      exact ih hk.2 hn.of_append_right h1 h2

lemma not_mem_allIds_occErase (m : List (EdgeKey × List Nat)) (e : EdgeKey) (i : Nat)
    (hn : (allIds m).Nodup) (h : i ∈ occList m e) :
    i ∉ allIds (occErase m e i) := by
  induction m with
  | nil => simp [occList] at h
  | cons p rest ih =>
    obtain ⟨k, l⟩ := p
    rw [allIds_cons] at hn
    have hdisj := List.disjoint_of_nodup_append hn
    by_cases hke : k = e
    · subst hke
      simp only [occList, if_pos rfl] at h
      rw [show occErase ((k, l) :: rest) k i = (k, l.erase i) :: rest from by
        simp [occErase]]
      rw [allIds_cons]
      intro hmem
      rcases List.mem_append.mp hmem with hl | hr
      · exact ((hn.of_append_left.mem_erase_iff).mp hl).1 rfl
      · exact (hdisj h) hr
    · simp only [occList, if_neg hke] at h
      rw [show occErase ((k, l) :: rest) e i = (k, l) :: occErase rest e i from by
        simp [occErase, hke]]
      rw [allIds_cons]
      intro hmem
      rcases List.mem_append.mp hmem with hl | hr
      · exact (hdisj hl) (mem_allIds_of_mem_occList rest e i h)
      · exact ih hn.of_append_right h hr

lemma not_mem_occList_of_not_mem_allIds (m : List (EdgeKey × List Nat)) (e : EdgeKey)
    (i : Nat) (h : i ∉ allIds m) : i ∉ occList m e :=
  fun hm => h (mem_allIds_of_mem_occList m e i hm)

lemma occTotal_eq_length_allIds (m : List (EdgeKey × List Nat)) :
    occTotal m = (allIds m).length := by
  induction m with
  | nil => rfl
  | cons p rest ih =>
    obtain ⟨k, l⟩ := p
    rw [show occTotal ((k, l) :: rest) = l.length + occTotal rest from by
      simp [occTotal]]
    rw [allIds_cons, List.length_append, ih]

/-- The invariant forces the counting equation: the occupancy ids (a
nodup list, by the invariant) are in bijection with the active vehicles
that have a current edge. -/
lemma occTotal_eq_active_count (s : SimState) (hinv : OccInv s) :
    occTotal s.edge_vehicles = (activeWithEdge s).length := by
  have hnd2 : ((activeWithEdge s).map Vehicle.id).Nodup :=
    hinv.veh_ids_nodup.sublist ((List.filter_sublist _).map Vehicle.id)
  have hperm : List.Perm (allIds s.edge_vehicles) ((activeWithEdge s).map Vehicle.id) := by
    refine (List.perm_ext_iff_of_nodup hinv.ids_nodup hnd2).mpr fun i => ⟨?_, ?_⟩
    · intro hi
      obtain ⟨e, he⟩ := exists_occList_of_mem_allIds _ hinv.keys_nodup i hi
      obtain ⟨veh, hveh, rfl⟩ := hinv.occ_ids_exist i hi
      rcases hc : veh.completed with _ | _
      · have hce := (hinv.active_mem_iff veh hveh hc e).mp he
        refine List.mem_map.mpr ⟨veh, List.mem_filter.mpr ⟨hveh, ?_⟩, rfl⟩
        simp [hc, hce]
      · exact absurd he (hinv.completed_not_mem veh hveh hc e)
    · intro hi
      obtain ⟨veh, hvf, rfl⟩ := List.mem_map.mp hi
      obtain ⟨hveh, hcond⟩ := List.mem_filter.mp hvf
      rw [Bool.and_eq_true, Bool.not_eq_true'] at hcond
      obtain ⟨e, he⟩ := Option.isSome_iff_exists.mp hcond.2
      exact mem_allIds_of_mem_occList _ e _
        ((hinv.active_mem_iff veh hveh hcond.1 e).mpr he)
  rw [occTotal_eq_length_allIds, hperm.length_eq, List.length_map]

/-- Vehicle ids are untouched by the per-vehicle map updates of
`applyOccOp`. -/
lemma map_update_ids (vehicles : List Vehicle) (f : Vehicle → Vehicle)
    (hf : ∀ w, (f w).id = w.id) :
    (vehicles.map f).map Vehicle.id = vehicles.map Vehicle.id := by
  rw [List.map_map]
  exact List.map_congr_left fun w _ => hf w

/-- Helper: each of the three occupancy operations, run at a state
satisfying the invariant and its call-site precondition, yields a state
satisfying the invariant again. -/
lemma occInv_applyOccOp (s : SimState) (op : OccOp)
    (hinv : OccInv s) (hpre : OccOpPre op s) : OccInv (applyOccOp op s) := by
  obtain ⟨hk, hn, hvn, hmem, hcomp, hexist⟩ := hinv
  rcases op with ⟨veh, e⟩ | ⟨vid, old_e, new_e⟩ | ⟨vid, old_e⟩
  · -- spawn attach
    obtain ⟨hcf, hfresh⟩ := hpre
    have hnotall : veh.id ∉ allIds s.edge_vehicles := fun hmm => by
      obtain ⟨w, hw, hwid⟩ := hexist veh.id hmm
      exact hfresh w hw hwid
    refine ⟨keys_nodup_occAppend _ _ _ hk, ?_, ?_, ?_, ?_, ?_⟩
    · exact ((allIds_occAppend_perm _ _ _).nodup_iff).mpr (hn.cons hnotall)
    · simp only [applyOccOp, List.map_append, List.map_cons, List.map_nil]
      rw [List.nodup_append]
      refine ⟨hvn, by simp, fun a ha hae => ?_⟩
      rw [List.mem_singleton] at hae
      obtain ⟨w, hw, hwid⟩ := List.mem_map.mp ha
      exact hfresh w hw (by simpa [hae] using hwid)
    · intro w hw hwc f
      simp only [applyOccOp] at hw ⊢
      rcases List.mem_append.mp hw with hold | hnew
      · have hwe : w.id ≠ veh.id := hfresh w hold
        constructor
        · intro hf
          by_cases hfe : f = e
          · subst hfe
            rw [occList_occAppend_self] at hf
            rcases List.mem_append.mp hf with h1 | h2
            · exact (hmem w hold hwc f).mp h1
            · exact absurd (List.mem_singleton.mp h2) hwe
          · rw [occList_occAppend_ne _ _ _ _ hfe] at hf
            exact (hmem w hold hwc f).mp hf
        · intro hf
          have h1 := (hmem w hold hwc f).mpr hf
          by_cases hfe : f = e
          · subst hfe
            rw [occList_occAppend_self]
            exact List.mem_append_left _ h1
          · rw [occList_occAppend_ne _ _ _ _ hfe]
            exact h1
      · rw [List.mem_singleton] at hnew
        subst hnew
        simp only []
        constructor
        · intro hf
          by_cases hfe : f = e
          · simp [hfe]
          · rw [occList_occAppend_ne _ _ _ _ hfe] at hf
            exact absurd hf (not_mem_occList_of_not_mem_allIds _ _ _ hnotall)
        · intro hf
          have : f = e := by simpa using hf.symm
          subst this
          rw [occList_occAppend_self]
          exact List.mem_append_right _ (List.mem_singleton.mpr rfl)
    · intro w hw hwc f
      simp only [applyOccOp] at hw ⊢
      rcases List.mem_append.mp hw with hold | hnew
      · have hwe : w.id ≠ veh.id := hfresh w hold
        by_cases hfe : f = e
        · subst hfe
          rw [occList_occAppend_self]
          intro hf
          rcases List.mem_append.mp hf with h1 | h2
          · exact hcomp w hold hwc f h1
          · exact hwe (List.mem_singleton.mp h2)
        · rw [occList_occAppend_ne _ _ _ _ hfe]
          exact hcomp w hold hwc f
      · rw [List.mem_singleton] at hnew
        subst hnew
        simp at hwc
        simp [hcf] at hwc
    · intro i hi
      have := (allIds_occAppend_perm s.edge_vehicles e veh.id).mem_iff.mp hi
      rcases List.mem_cons.mp this with h1 | h2
      · refine ⟨{ veh with current_edge := some e }, ?_, h1.symm⟩
        simp [applyOccOp]
      · obtain ⟨w, hw, hwid⟩ := hexist i h2
        exact ⟨w, by simp [applyOccOp, hw], hwid⟩
  · -- edge transition
    obtain ⟨veh, hveh, hvid, hvc, hvce⟩ := hpre
    have hin_old : vid ∈ occList s.edge_vehicles old_e :=
      hvid ▸ (hmem veh hveh hvc old_e).mpr hvce
    have hgone : vid ∉ allIds (occErase s.edge_vehicles old_e vid) :=
      not_mem_allIds_occErase _ _ _ hn hin_old
    have hn' : (allIds (occErase s.edge_vehicles old_e vid)).Nodup :=
      hn.sublist (allIds_occErase_sublist _ _ _)
    have hmem_iff : ∀ j, j ≠ vid → ∀ f,
        (j ∈ occList (occAppend (occErase s.edge_vehicles old_e vid) new_e vid) f ↔
          j ∈ occList s.edge_vehicles f) := by
      intro j hj f
      by_cases hfn : f = new_e
      · subst hfn
        rw [occList_occAppend_self]
        constructor
        · intro hjf
          rcases List.mem_append.mp hjf with h1 | h2
          · by_cases hfo : f = old_e
            · subst hfo
              rw [occList_occErase_self] at h1
              exact List.mem_of_mem_erase h1
            · rwa [occList_occErase_ne _ _ _ _ hfo] at h1
          · exact absurd (List.mem_singleton.mp h2) hj
        · intro hjf
          refine List.mem_append_left _ ?_
          by_cases hfo : f = old_e
          · subst hfo
            rw [occList_occErase_self]
            exact List.mem_erase_of_ne hj |>.mpr hjf
          · rwa [occList_occErase_ne _ _ _ _ hfo]
      · rw [occList_occAppend_ne _ _ _ _ hfn]
        by_cases hfo : f = old_e
        · subst hfo
          rw [occList_occErase_self]
          exact ⟨fun h => List.mem_of_mem_erase h, fun h => (List.mem_erase_of_ne hj).mpr h⟩
        · rw [occList_occErase_ne _ _ _ _ hfo]
    have hvid_iff : ∀ f,
        (vid ∈ occList (occAppend (occErase s.edge_vehicles old_e vid) new_e vid) f ↔
          f = new_e) := by
      intro f
      constructor
      · intro hf
        by_contra hfn
        rw [occList_occAppend_ne _ _ _ _ hfn] at hf
        exact hgone (mem_allIds_of_mem_occList _ f vid hf)
      · intro hfe
        subst hfe
        rw [occList_occAppend_self]
        exact List.mem_append_right _ (List.mem_singleton.mpr rfl)
    refine ⟨keys_nodup_occAppend _ _ _ (keys_nodup_occErase _ _ _ hk), ?_, ?_, ?_, ?_, ?_⟩
    · exact ((allIds_occAppend_perm _ _ _).nodup_iff).mpr (hn'.cons hgone)
    · simp only [applyOccOp]
      rw [map_update_ids s.vehicles _ fun w => by
        by_cases hw : w.id = vid <;> simp [hw]]
      exact hvn
    · intro w hw hwc f
      simp only [applyOccOp] at hw ⊢
      obtain ⟨w0, hw0, hww⟩ := List.mem_map.mp hw
      by_cases hw0id : w0.id = vid
      · rw [if_pos hw0id] at hww
        subst hww
        simp only []
        rw [hw0id, hvid_iff f]
        constructor
        · intro hfe
          simp [hfe]
        · intro hfe
          simpa using hfe.symm
      · rw [if_neg hw0id] at hww
        subst hww
        rw [hmem_iff w0.id hw0id f]
        exact hmem w0 hw0 hwc f
    · intro w hw hwc f
      simp only [applyOccOp] at hw ⊢
      obtain ⟨w0, hw0, hww⟩ := List.mem_map.mp hw
      by_cases hw0id : w0.id = vid
      · rw [if_pos hw0id] at hww
        subst hww
        simp at hwc
        have hw0veh : w0 = veh :=
          List.inj_on_of_nodup_map hvn hw0 hveh (hw0id.trans hvid.symm)
        rw [hw0veh, hvc] at hwc
        cases hwc
      · rw [if_neg hw0id] at hww
        subst hww
        rw [hmem_iff w0.id hw0id f]
        exact hcomp w0 hw0 hwc f
    · intro i hi
      have hi' := (allIds_occAppend_perm _ new_e vid).mem_iff.mp hi
      rcases List.mem_cons.mp hi' with h1 | h2
      · subst h1
        refine ⟨{ veh with current_edge := some new_e }, ?_, hvid⟩
        simp only [applyOccOp]
        refine List.mem_map.mpr ⟨veh, hveh, ?_⟩
        rw [if_pos hvid]
      · have hi2 : i ∈ allIds s.edge_vehicles :=
          (allIds_occErase_sublist _ _ _).subset h2
        obtain ⟨w, hw, hwid⟩ := hexist i hi2
        by_cases hwv : w.id = vid
        · exact ⟨{ w with current_edge := some new_e },
            List.mem_map.mpr ⟨w, hw, by rw [if_pos hwv]⟩, hwid⟩
        · exact ⟨w, List.mem_map.mpr ⟨w, hw, by rw [if_neg hwv]⟩, hwid⟩
  · -- completion detach
    obtain ⟨veh, hveh, hvid, hvc, hvce⟩ := hpre
    have hin_old : vid ∈ occList s.edge_vehicles old_e :=
      hvid ▸ (hmem veh hveh hvc old_e).mpr hvce
    have hgone : vid ∉ allIds (occErase s.edge_vehicles old_e vid) :=
      not_mem_allIds_occErase _ _ _ hn hin_old
    have hmem_iff : ∀ j, j ≠ vid → ∀ f,
        (j ∈ occList (occErase s.edge_vehicles old_e vid) f ↔
          j ∈ occList s.edge_vehicles f) := by
      intro j hj f
      by_cases hfo : f = old_e
      · subst hfo
        rw [occList_occErase_self]
        exact ⟨fun h => List.mem_of_mem_erase h, fun h => (List.mem_erase_of_ne hj).mpr h⟩
      · rw [occList_occErase_ne _ _ _ _ hfo]
    refine ⟨keys_nodup_occErase _ _ _ hk, hn.sublist (allIds_occErase_sublist _ _ _), ?_,
      ?_, ?_, ?_⟩
    · simp only [applyOccOp]
      rw [map_update_ids s.vehicles _ fun w => by
        by_cases hw : w.id = vid <;> simp [hw]]
      exact hvn
    · intro w hw hwc f
      simp only [applyOccOp] at hw ⊢
      obtain ⟨w0, hw0, hww⟩ := List.mem_map.mp hw
      by_cases hw0id : w0.id = vid
      · rw [if_pos hw0id] at hww
        subst hww
        simp at hwc
      · rw [if_neg hw0id] at hww
        subst hww
        rw [hmem_iff w0.id hw0id f]
        exact hmem w0 hw0 hwc f
    · intro w hw hwc f
      simp only [applyOccOp] at hw ⊢
      obtain ⟨w0, hw0, hww⟩ := List.mem_map.mp hw
      by_cases hw0id : w0.id = vid
      · rw [if_pos hw0id] at hww
        subst hww
        simp only []
        intro hf
        exact not_mem_occList_of_not_mem_allIds _ f vid hgone (hw0id ▸ hf)
      · rw [if_neg hw0id] at hww
        subst hww
        rw [hmem_iff w0.id hw0id f]
        exact hcomp w0 hw0 hwc f
    · intro i hi
      have hi2 : i ∈ allIds s.edge_vehicles :=
        (allIds_occErase_sublist _ _ _).subset hi
      obtain ⟨w, hw, hwid⟩ := hexist i hi2
      by_cases hwv : w.id = vid
      · exact ⟨{ w with completed := true },
          List.mem_map.mpr ⟨w, hw, by rw [if_pos hwv]⟩, hwid⟩
      · exact ⟨w, List.mem_map.mpr ⟨w, hw, by rw [if_neg hwv]⟩, hwid⟩

/-- Claim C8: the edge-occupancy invariant holds at tick boundaries and
is preserved by every occupancy operation — the spawn attach, the edge
transition and the completion detach, each under its call-site
precondition (fresh id for a spawn; an active vehicle currently on the
detached edge for the other two). The resulting state again satisfies
`OccInv` (in particular an active vehicle's id is in exactly the list of
its non-null current edge and a completed vehicle's id is in none), the
sum of per-edge occupancy counts equals the number of active vehicles
with a current edge, and every id is in at most one edge's list. -/
theorem occupancy_invariant_preserved (s : SimState) (op : OccOp)
    (hinv : OccInv s) (hpre : OccOpPre op s) :
    OccInv (applyOccOp op s) ∧
    occTotal (applyOccOp op s).edge_vehicles =
      (activeWithEdge (applyOccOp op s)).length ∧
    ∀ i e₁ e₂, i ∈ occList (applyOccOp op s).edge_vehicles e₁ →
      i ∈ occList (applyOccOp op s).edge_vehicles e₂ → e₁ = e₂ := by
  have hinv' : OccInv (applyOccOp op s) := occInv_applyOccOp s op hinv hpre
  exact ⟨hinv', occTotal_eq_active_count _ hinv',
    fun i e₁ e₂ h1 h2 =>
      occList_unique_edge _ hinv'.keys_nodup hinv'.ids_nodup i e₁ e₂ h1 h2⟩

/-- Claim C8 witness: the preservation theorem applied to a spawn attach
of the demo car onto edge `(0, 1, 0)` in the fresh (empty) state. -/
theorem occupancy_invariant_preserved_witness :
    OccInv (applyOccOp (OccOp.spawnAttach carDemo (0, 1, 0)) SimState.fresh) ∧
    occTotal (applyOccOp (OccOp.spawnAttach carDemo (0, 1, 0)) SimState.fresh).edge_vehicles
      = (activeWithEdge (applyOccOp (OccOp.spawnAttach carDemo (0, 1, 0)) SimState.fresh)).length := by
  have hfresh : OccInv SimState.fresh := by
    refine ⟨?_, ?_, ?_, ?_, ?_, ?_⟩ <;> simp [SimState.fresh, allIds]
  have h := occupancy_invariant_preserved SimState.fresh
    (OccOp.spawnAttach carDemo (0, 1, 0)) hfresh
    ⟨rfl, by simp [SimState.fresh]⟩
  exact ⟨h.1, h.2.1⟩

end BellevueTraffic
